import Mathlib

/-!
Verification of the SMF (Standard MIDI File) writer in
`src/midi-generation/genMidiFromGpt.py`.

The two functions of the source, `write_varlen` and `create_midi`, are embedded
shallowly below.  Python integers are arbitrary-precision, so they are modelled
by `Int`; Python float beat values are modelled by exact rationals `ℚ` (on the
small dyadic inputs appearing in the concrete scenarios below, IEEE double
arithmetic is exact, so the models agree byte for byte).  Runtime failures
(`ZeroDivisionError`, `struct.error`, `ValueError`) are modelled by an explicit
error type, and the possible non-termination of `write_varlen`'s first loop is
modelled by a fuel parameter: a result of `none` means the computation did not
finish within `fuel` iterations of each loop, and divergence is expressed as
`none` for every fuel.
-/

set_option allowUnsafeReducibility true
set_option maxRecDepth 4000
attribute [semireducible] Rat.mul Rat.inv Rat.add Rat.sub Rat.div Rat.neg

/-- Truncation toward zero: the meaning of Python's `int()` applied to an exact
numeric value.  `int(x)` drops the fractional part, so for `x < 0` it is the
ceiling `-⌊-x⌋` and otherwise the floor. -/
def pyInt (q : ℚ) : Int := if q < 0 then -Rat.floor (-q) else Rat.floor q

/-- Runtime errors that the Python code in `create_midi` can raise:
`ZeroDivisionError` from `60000000 / tempo` with `tempo = 0`, `struct.error`
from `pack('>L', x)` with `x` outside `[0, 2^32)`, and `ValueError` from
`bytes([..])` with an entry outside `[0, 256)`. -/
inductive PyError where
  | zeroDivision
  | structError
  | valueError
deriving DecidableEq

/-- First `while` loop of `write_varlen` (source lines 7-10):
`while value >> 7: value >>= 7; buffer <<= 8; buffer |= ((value & 0x7F) | 0x80)`.
On a Python (two's-complement, arbitrary-precision) integer, `value >> 7` is
floor division by 128, which is `Int`'s `/` (`Int.ediv`), and `value & 0x7F` is
the nonnegative remainder `value % 128` (`Int.emod`).  `buffer <<= 8` is
`buffer * 256`, after which the low 8 bits of `buffer` are zero, so or-ing in
the value `(value & 0x7F) | 0x80 = value % 128 + 128 ∈ [128, 256)` is exactly
addition.  The loop leaves `value` negative forever when it starts negative
(`-1 >> 7 = -1` in Python), so it need not terminate; `fuel` bounds the number
of iterations and `none` models running out of fuel. -/
def varlenLoop1 : Nat → Int → Int → Option Int
  | fuel + 1, value, buffer =>
      if value / 128 = 0 then some buffer
      else varlenLoop1 fuel (value / 128) (buffer * 256 + ((value / 128) % 128 + 128))
  | 0, value, buffer => if value / 128 = 0 then some buffer else none

/-- Second `while True` loop of `write_varlen` (source lines 11-17):
`out.append(buffer & 0xFF); if buffer & 0x80: buffer >>= 8 else: break`.
`buffer & 0xFF` is `buffer % 256`; the truthiness test `buffer & 0x80` holds
exactly when bit 7 of `buffer` is set, i.e. when `128 ≤ buffer % 256`; and
`buffer >>= 8` is floor division by 256.  The returned list is `out` in
append order (the caller reverses it, mirroring the source's `out[::-1]`). -/
def varlenLoop2 : Nat → Int → Option (List Int)
  | fuel + 1, buffer =>
      if 128 ≤ buffer % 256 then
        match varlenLoop2 fuel (buffer / 256) with
        | some rest => some (buffer % 256 :: rest)
        | none => none
      else some [buffer % 256]
  | 0, buffer => if 128 ≤ buffer % 256 then none else some [buffer % 256]

/-- The source's `write_varlen(value)` (lines 3-18): `buffer` is initialised to
`value & 0x7F = value % 128`, the two loops above run, and the accumulated byte
list is reversed (`return bytes(out[::-1])`).  The unused local `bytes_out` of
the source is omitted.  `none` models non-termination (insufficient fuel). -/
def write_varlen (fuel : Nat) (value : Int) : Option (List Int) :=
  match varlenLoop1 fuel value (value % 128) with
  | some buffer =>
      match varlenLoop2 fuel buffer with
      | some out => some out.reverse
      | none => none
  | none => none

/-- One caller-supplied note, a 4-tuple `(start, pitch, dur, vel)` as consumed
by the loop heading `for start, pitch, dur, vel in notes` (source line 28).
Beat values (`start`, `dur`) are Python floats, modelled as exact rationals;
`pitch` and `vel` are Python integers. -/
structure NoteEvent where
  start : ℚ
  pitch : Int
  dur : ℚ
  vel : Int

/-- Python's `bytes([a, b])`: two raw bytes, a `ValueError` (modelled as `none`)
if either argument is outside `[0, 256)`. -/
def pyBytes2 (a b : Int) : Option (List Int) :=
  if 0 ≤ a ∧ a < 256 ∧ 0 ≤ b ∧ b < 256 then some [a, b] else none

/-- The 4 big-endian base-256 digits of `x`, the payload of `pack('>L', x)`. -/
def uint32be (x : Int) : List Int :=
  [x / 16777216 % 256, x / 65536 % 256, x / 256 % 256, x % 256]

/-- Python's `struct.pack('>L', x)`: 4 big-endian bytes, a `struct.error`
(modelled as `none`) if `x` is outside `[0, 2^32)`.  The out-of-range test is
split into its two halves `x < 0` and `4294967296 ≤ x`. -/
def pack_L (x : Int) : Option (List Int) :=
  if x < 0 then none else if 4294967296 ≤ x then none else some (uint32be x)

/-- Header chunk of the output (source line 41):
`b'MThd' + pack('>LHHH', 6, 1, 1, 480)`, i.e. the magic `MThd`, chunk length 6,
format 1, track count 1, and 480 ticks per quarter note, all big-endian. -/
def headerBytes : List Int :=
  [0x4D, 0x54, 0x68, 0x64, 0, 0, 0, 6, 0, 1, 0, 1, 0x01, 0xE0]

/-- The track chunk magic `b'MTrk'` (source line 42). -/
def mtrkMagic : List Int := [0x4D, 0x54, 0x72, 0x6B]

/-- The end-of-track meta event `b'\x00\xFF\x2F\x00'` (source line 38). -/
def eotBytes : List Int := [0, 0xFF, 0x2F, 0]

/-- The `for start, pitch, dur, vel in notes` loop of `create_midi` (source
lines 27-35), carrying the running cursor `last_time`.  Per event it computes
`delta_start = int((start - last_time) * 480)` and `delta_dur = int(dur * 480)`,
then appends `write_varlen(delta_start) + b'\x90' + bytes([pitch, vel])` and
`write_varlen(delta_dur) + b'\x80' + bytes([pitch, 0])`, evaluated in that
left-to-right order, and finally sets `last_time = start + dur`.  The result is
the concatenation of the bytes the loop appends to `track_data`; `none` models
non-termination of a `write_varlen` call. -/
def eventLoop (fuel : Nat) : ℚ → List NoteEvent → Option (Except PyError (List Int))
  | _, [] => some (.ok [])
  | last_time, e :: rest =>
      let delta_start := pyInt ((e.start - last_time) * 480)
      let delta_dur := pyInt (e.dur * 480)
      match write_varlen fuel delta_start with
      | none => none
      | some vs =>
        match pyBytes2 e.pitch e.vel with
        | none => some (.error .valueError)
        | some pv =>
          match write_varlen fuel delta_dur with
          | none => none
          | some vd =>
            match pyBytes2 e.pitch 0 with
            | none => some (.error .valueError)
            | some p0 =>
              match eventLoop fuel (e.start + e.dur) rest with
              | none => none
              | some (.error err) => some (.error err)
              | some (.ok restBytes) =>
                  some (.ok (vs ++ [0x90] ++ pv ++ (vd ++ [0x80] ++ p0) ++ restBytes))

/-- The source's `create_midi(filename, notes, tempo)` (lines 20-44), modelled
as the byte buffer `header + track` it writes to the file (file I/O itself is
outside the model).  `microseconds_per_beat = int(60000000 / tempo)` raises
`ZeroDivisionError` when `tempo = 0`; the tempo meta event is
`b'\x00\xFF\x51\x03' + pack('>L', microseconds_per_beat)[1:]`; the note loop
runs with cursor `last_time = 0`; the end-of-track meta event is appended; and
the track chunk is `b'MTrk' + pack('>L', len(track_data)) + track_data`.
`none` models non-termination, `Except.error` a raised exception. -/
def create_midi (fuel : Nat) (tempo : Int) (notes : List NoteEvent) :
    Option (Except PyError (List Int)) :=
  if tempo = 0 then some (.error .zeroDivision)
  else
    let microseconds_per_beat := pyInt (60000000 / (tempo : ℚ))
    match pack_L microseconds_per_beat with
    | none => some (.error .structError)
    | some mb =>
      match eventLoop fuel 0 notes with
      | none => none
      | some (.error e) => some (.error e)
      | some (.ok evBytes) =>
        let track_data := ([0, 0xFF, 0x51, 0x03] ++ mb.drop 1) ++ evBytes ++ eotBytes
        match pack_L (track_data.length : Int) with
        | none => some (.error .structError)
        | some lenB => some (.ok (headerBytes ++ (mtrkMagic ++ lenB ++ track_data)))

/-- The sequence of arguments that `create_midi`'s loop passes to
`write_varlen`, in call order: for each event, the truncated start delta
`int((start - last_time) * 480)` followed by the truncated duration
`int(dur * 480)` (source lines 29-30).  This derived definition is used only to
state under which inputs the encode terminates. -/
def deltasOf : ℚ → List NoteEvent → List Int
  | _, [] => []
  | last_time, e :: rest =>
      pyInt ((e.start - last_time) * 480) :: pyInt (e.dur * 480) ::
        deltasOf (e.start + e.dur) rest

theorem varlenLoop1_done (fuel : Nat) (value buffer : Int) (h : value / 128 = 0) :
    varlenLoop1 fuel value buffer = some buffer := by
  cases fuel <;> simp [varlenLoop1, h]

theorem varlenLoop1_neg (fuel : Nat) :
    ∀ value buffer : Int, value < 0 → varlenLoop1 fuel value buffer = none := by
  induction fuel with
  | zero =>
    intro v b hv
    have h : v / 128 < 0 := Int.ediv_neg' hv (by norm_num)
    simp [varlenLoop1, h.ne]
  | succ n ih =>
    intro v b hv
    have h : v / 128 < 0 := Int.ediv_neg' hv (by norm_num)
    simp only [varlenLoop1, if_neg h.ne]
    exact ih _ _ h

theorem varlenLoop2_done (fuel : Nat) (buffer : Int) (h : ¬ 128 ≤ buffer % 256) :
    varlenLoop2 fuel buffer = some [buffer % 256] := by
  cases fuel <;> simp [varlenLoop2, h]

theorem write_varlen_neg (fuel : Nat) (v : Int) (h : v < 0) :
    write_varlen fuel v = none := by
  simp [write_varlen, varlenLoop1_neg fuel v _ h]

theorem write_varlen_small (fuel : Nat) (v : Int) (h0 : 0 ≤ v) (h1 : v < 128) :
    write_varlen fuel v = some [v] := by
  have hd : v / 128 = 0 := Int.ediv_eq_zero_of_lt h0 h1
  have hm : v % 128 = v := Int.emod_eq_of_lt h0 h1
  have hm2 : v % 256 = v := Int.emod_eq_of_lt h0 (by omega)
  rw [write_varlen, hm, varlenLoop1_done _ _ _ hd]
  dsimp only
  rw [varlenLoop2_done _ _ (by omega)]
  simp [hm2]

theorem varlenLoop1_mono : ∀ {fuel fuel' : Nat}, fuel ≤ fuel' → ∀ {v b r : Int},
    varlenLoop1 fuel v b = some r → varlenLoop1 fuel' v b = some r := by
  intro fuel
  induction fuel with
  | zero =>
    intro fuel' _ v b r h
    by_cases hc : v / 128 = 0
    · rw [varlenLoop1_done _ _ _ hc] at h ⊢; exact h
    · simp [varlenLoop1, hc] at h
  | succ n ih =>
    intro fuel' hle v b r h
    by_cases hc : v / 128 = 0
    · rw [varlenLoop1_done _ _ _ hc] at h ⊢; exact h
    · obtain ⟨m, rfl⟩ : ∃ m, fuel' = m + 1 := ⟨fuel' - 1, by omega⟩
      simp only [varlenLoop1, if_neg hc] at h ⊢
      exact ih (by omega) h

theorem varlenLoop2_mono : ∀ {fuel fuel' : Nat}, fuel ≤ fuel' → ∀ {b : Int}
    {r : List Int}, varlenLoop2 fuel b = some r → varlenLoop2 fuel' b = some r := by
  intro fuel
  induction fuel with
  | zero =>
    intro fuel' _ b r h
    by_cases hc : 128 ≤ b % 256
    · simp [varlenLoop2, hc] at h
    · rw [varlenLoop2_done _ _ hc] at h ⊢; exact h
  | succ n ih =>
    intro fuel' hle b r h
    by_cases hc : 128 ≤ b % 256
    · obtain ⟨m, rfl⟩ : ∃ m, fuel' = m + 1 := ⟨fuel' - 1, by omega⟩
      simp only [varlenLoop2, if_pos hc] at h ⊢
      cases hrec : varlenLoop2 n (b / 256) with
      | none => rw [hrec] at h; exact absurd h (by simp)
      | some rest => rw [hrec] at h; rw [ih (by omega) hrec]; exact h
    · rw [varlenLoop2_done _ _ hc] at h ⊢; exact h

theorem write_varlen_mono {fuel fuel' : Nat} (hle : fuel ≤ fuel') {v : Int}
    {r : List Int} (h : write_varlen fuel v = some r) :
    write_varlen fuel' v = some r := by
  rw [write_varlen] at h ⊢
  cases h1 : varlenLoop1 fuel v (v % 128) with
  | none => rw [h1] at h; simp at h
  | some buffer =>
    rw [h1] at h
    rw [varlenLoop1_mono hle h1]
    dsimp only at h ⊢
    cases h2 : varlenLoop2 fuel buffer with
    | none => rw [h2] at h; simp at h
    | some out => rw [h2] at h; rw [varlenLoop2_mono hle h2]; exact h

theorem eventLoop_mono {fuel fuel' : Nat} (hle : fuel ≤ fuel') :
    ∀ {notes : List NoteEvent} {last : ℚ} {r},
    eventLoop fuel last notes = some r → eventLoop fuel' last notes = some r := by
  intro notes
  induction notes with
  | nil => intro last r h; simpa [eventLoop] using h
  | cons e rest ih =>
    intro last r h
    simp only [eventLoop] at h ⊢
    cases h1 : write_varlen fuel (pyInt ((e.start - last) * 480)) with
    | none => rw [h1] at h; simp at h
    | some vs =>
      rw [h1] at h
      rw [write_varlen_mono hle h1]
      dsimp only at h ⊢
      cases h2 : pyBytes2 e.pitch e.vel with
      | none => rw [h2] at h; exact h
      | some pv =>
        rw [h2] at h
        dsimp only at h ⊢
        cases h3 : write_varlen fuel (pyInt (e.dur * 480)) with
        | none => rw [h3] at h; simp at h
        | some vd =>
          rw [h3] at h
          rw [write_varlen_mono hle h3]
          dsimp only at h ⊢
          cases h4 : pyBytes2 e.pitch 0 with
          | none => rw [h4] at h; exact h
          | some p0 =>
            rw [h4] at h
            dsimp only at h ⊢
            cases h5 : eventLoop fuel (e.start + e.dur) rest with
            | none => rw [h5] at h; simp at h
            | some s =>
              rw [h5] at h
              rw [ih h5]
              cases s with
              | error err => exact h
              | ok rb => exact h

theorem create_midi_mono {fuel fuel' : Nat} (hle : fuel ≤ fuel') {tempo : Int}
    {notes : List NoteEvent} {r} (h : create_midi fuel tempo notes = some r) :
    create_midi fuel' tempo notes = some r := by
  unfold create_midi at h ⊢
  dsimp only at h ⊢
  by_cases ht : tempo = 0
  · rw [if_pos ht] at h ⊢; exact h
  · rw [if_neg ht] at h ⊢
    cases hp : pack_L (pyInt (60000000 / (tempo : ℚ))) with
    | none => rw [hp] at h; exact h
    | some mb =>
      rw [hp] at h
      dsimp only at h ⊢
      cases he : eventLoop fuel 0 notes with
      | none => rw [he] at h; simp at h
      | some s =>
        rw [he] at h
        rw [eventLoop_mono hle he]
        cases s with
        | error e => exact h
        | ok ev => exact h

theorem varlenLoop1_exists :
    ∀ (n : Nat) (v b : Int), 0 ≤ v → v.toNat ≤ n → 0 ≤ b →
    ∃ r, varlenLoop1 n v b = some r ∧ 0 ≤ r := by
  intro n
  induction n with
  | zero =>
    intro v b hv hn hb
    have hv0 : v = 0 := by omega
    subst hv0
    exact ⟨b, varlenLoop1_done _ _ _ (by decide), hb⟩
  | succ n ih =>
    intro v b hv hn hb
    by_cases hc : v / 128 = 0
    · exact ⟨b, varlenLoop1_done _ _ _ hc, hb⟩
    · have h128 : 128 ≤ v := by
        by_contra hlt
        exact hc (Int.ediv_eq_zero_of_lt hv (by omega))
      obtain ⟨r, hr, hr0⟩ :=
        ih (v / 128) (b * 256 + (v / 128 % 128 + 128)) (by omega) (by omega) (by omega)
      refine ⟨r, ?_, hr0⟩
      simp only [varlenLoop1, if_neg hc]
      exact hr

theorem varlenLoop2_exists :
    ∀ (n : Nat) (b : Int), 0 ≤ b → b.toNat ≤ n →
    ∃ out, varlenLoop2 n b = some out := by
  intro n
  induction n with
  | zero =>
    intro b hb hn
    have hb0 : b = 0 := by omega
    subst hb0
    exact ⟨[(0 : Int) % 256], varlenLoop2_done _ _ (by decide)⟩
  | succ n ih =>
    intro b hb hn
    by_cases hc : 128 ≤ b % 256
    · have h128 : 128 ≤ b := by omega
      obtain ⟨out, hout⟩ := ih (b / 256) (by omega) (by omega)
      refine ⟨b % 256 :: out, ?_⟩
      simp only [varlenLoop2, if_pos hc, hout]
    · exact ⟨[b % 256], varlenLoop2_done _ _ hc⟩

theorem write_varlen_exists (v : Int) (hv : 0 ≤ v) :
    ∃ fuel out, write_varlen fuel v = some out := by
  obtain ⟨r, h1, hr⟩ := varlenLoop1_exists v.toNat v (v % 128) hv le_rfl (by omega)
  obtain ⟨out, h2⟩ := varlenLoop2_exists r.toNat r hr le_rfl
  refine ⟨v.toNat + r.toNat, out.reverse, ?_⟩
  rw [write_varlen, varlenLoop1_mono (Nat.le_add_right _ _) h1]
  dsimp only
  rw [varlenLoop2_mono (Nat.le_add_left _ _) h2]

theorem eventLoop_exists :
    ∀ (notes : List NoteEvent) (last : ℚ),
    (∀ d ∈ deltasOf last notes, 0 ≤ d) →
    ∃ fuel r, eventLoop fuel last notes = some r := by
  intro notes
  induction notes with
  | nil => intro last _; exact ⟨0, .ok [], rfl⟩
  | cons e rest ih =>
    intro last hd
    have hds : 0 ≤ pyInt ((e.start - last) * 480) := hd _ (by simp [deltasOf])
    have hdd : 0 ≤ pyInt (e.dur * 480) := hd _ (by simp [deltasOf])
    have hrest : ∀ d ∈ deltasOf (e.start + e.dur) rest, 0 ≤ d := by
      intro d hdm
      exact hd d (by simp [deltasOf, hdm])
    obtain ⟨f1, vs, h1⟩ := write_varlen_exists _ hds
    obtain ⟨f2, vd, h2⟩ := write_varlen_exists _ hdd
    obtain ⟨f3, r3, h3⟩ := ih (e.start + e.dur) hrest
    refine ⟨f1 + f2 + f3, ?_⟩
    simp only [eventLoop]
    rw [write_varlen_mono (by omega) h1]
    dsimp only
    cases hq : pyBytes2 e.pitch e.vel with
    | none => exact ⟨.error .valueError, rfl⟩
    | some pv =>
      dsimp only
      rw [write_varlen_mono (by omega) h2]
      dsimp only
      cases hq0 : pyBytes2 e.pitch 0 with
      | none => exact ⟨.error .valueError, rfl⟩
      | some p0 =>
        dsimp only
        rw [eventLoop_mono (by omega) h3]
        cases r3 with
        | error err => exact ⟨.error err, rfl⟩
        | ok rb => exact ⟨.ok (vs ++ [0x90] ++ pv ++ (vd ++ [0x80] ++ p0) ++ rb), rfl⟩

theorem eventLoop_none_of_first_neg (fuel : Nat) (last : ℚ) (e : NoteEvent)
    (rest : List NoteEvent) (h : pyInt ((e.start - last) * 480) < 0) :
    eventLoop fuel last (e :: rest) = none := by
  simp only [eventLoop]
  rw [write_varlen_neg fuel _ h]

theorem create_midi_none_of_eventLoop (fuel : Nat) (tempo : Int)
    (notes : List NoteEvent) (ht : tempo ≠ 0)
    (hp : pack_L (pyInt (60000000 / (tempo : ℚ))) ≠ none)
    (he : eventLoop fuel 0 notes = none) : create_midi fuel tempo notes = none := by
  unfold create_midi
  rw [if_neg ht]
  dsimp only
  cases hp2 : pack_L (pyInt (60000000 / (tempo : ℚ))) with
  | none => exact absurd hp2 hp
  | some mb =>
    dsimp only
    rw [he]

/-- C1: the VLQ encoder is correct on one-byte values (`write_varlen(0) = 00`,
`write_varlen(127) = 7F`) but emits the 7-bit groups of a multi-byte value
least-significant-first: `write_varlen(128)` evaluates to `00 81`, not to the
standard most-significant-first encoding `81 00` required by the claim, so the
standard VLQ decoding of the output does not yield the input. -/
theorem c1_write_varlen_reversed_groups :
    write_varlen 64 0 = some [0x00] ∧
    write_varlen 64 127 = some [0x7F] ∧
    write_varlen 64 128 = some [0x00, 0x81] ∧
    write_varlen 64 128 ≠ some [0x81, 0x00] := by
  refine ⟨rfl, rfl, rfl, ?_⟩
  decide

/-- C2: evaluation of the encode at the claim's input `tempo = 155`,
`events = [(0.0, 41, 0.75, 100)]`.  The header, the tempo meta event
`00 FF 51 03 05 E8 18` (387096 microseconds per beat), the Note-On
`00 90 29 64` and the end-of-track `00 FF 2F 00` are exactly as the claim
states, but the Note-Off delta time is emitted as `68 82` — the bytes of the
standard VLQ encoding `82 68` of 360 in reverse order — so the claimed track
bytes `VLQ(360) = 82 68` followed by `80 29 00` do not appear. -/
theorem c2_end_to_end_scenario :
    create_midi 64 155 [⟨0, 41, 3/4, 100⟩] = some (.ok
      [0x4D, 0x54, 0x68, 0x64, 0, 0, 0, 6, 0, 1, 0, 1, 0x01, 0xE0,
       0x4D, 0x54, 0x72, 0x6B, 0, 0, 0, 20,
       0, 0xFF, 0x51, 0x03, 0x05, 0xE8, 0x18,
       0, 0x90, 0x29, 0x64,
       0x68, 0x82, 0x80, 0x29, 0,
       0, 0xFF, 0x2F, 0]) := rfl

/-- C3, counterexample: at `tempo = 155` with the single event
`(0.0, 128, 0.75, 100)` — pitch 128, outside `[0,127]` — the encode does not
fail: it returns the complete buffer, with the out-of-range pitch emitted
verbatim as the data byte `0x80 = 128` of both the Note-On and the Note-Off.
The claim says this input is rejected with no buffer produced. -/
theorem c3_counterexample_pitch_128_encoded :
    create_midi 64 155 [⟨0, 128, 3/4, 100⟩] = some (.ok
      [0x4D, 0x54, 0x68, 0x64, 0, 0, 0, 6, 0, 1, 0, 1, 0x01, 0xE0,
       0x4D, 0x54, 0x72, 0x6B, 0, 0, 0, 20,
       0, 0xFF, 0x51, 0x03, 0x05, 0xE8, 0x18,
       0, 0x90, 128, 0x64,
       0x68, 0x82, 0x80, 128, 0,
       0, 0xFF, 0x2F, 0]) := rfl

/-- C3, amended: `create_midi` performs no `[0,127]` range validation.  An
event with pitch 128 is encoded into the output buffer (pitch byte `0x80`);
the encode only fails — with Python's `ValueError` from `bytes([..])`, not
with an `InvalidEvent` error — when a pitch or velocity lies outside
`[0, 255]`, as for pitch 256 below. -/
theorem c3_amended_no_range_validation :
    create_midi 64 120 [⟨0, 128, 1, 100⟩] = some (.ok
      [0x4D, 0x54, 0x68, 0x64, 0, 0, 0, 6, 0, 1, 0, 1, 0x01, 0xE0,
       0x4D, 0x54, 0x72, 0x6B, 0, 0, 0, 20,
       0, 0xFF, 0x51, 0x03, 0x07, 0xA1, 0x20,
       0, 0x90, 128, 0x64,
       0x60, 0x83, 0x80, 128, 0,
       0, 0xFF, 0x2F, 0]) ∧
    (∀ fuel : Nat, create_midi fuel 120 [⟨0, 256, 1, 100⟩] =
      some (.error .valueError)) := by
  refine ⟨rfl, fun fuel => ?_⟩
  have h0 : create_midi 0 120 [⟨0, 256, 1, 100⟩] = some (.error .valueError) := rfl
  exact create_midi_mono (Nat.zero_le fuel) h0

/-- C4, counterexample: with `tempo = 120` and events
`[(0, 60, 1/1024, 100), (0, 62, 1/4, 100)]`, the second event's computed start
delta `(0 - 1/1024) * 480 = -15/32` is negative, yet the encode does not
reject: `int()` truncates the negative delta to 0 and the buffer is produced,
the second Note-On carrying delta byte `00`. -/
theorem c4_counterexample_negative_delta_encoded :
    ((0 : ℚ) - (0 + 1/1024)) * 480 < 0 ∧
    create_midi 64 120 [⟨0, 60, 1/1024, 100⟩, ⟨0, 62, 1/4, 100⟩] = some (.ok
      [0x4D, 0x54, 0x68, 0x64, 0, 0, 0, 6, 0, 1, 0, 1, 0x01, 0xE0,
       0x4D, 0x54, 0x72, 0x6B, 0, 0, 0, 27,
       0, 0xFF, 0x51, 0x03, 0x07, 0xA1, 0x20,
       0, 0x90, 0x3C, 0x64,
       0, 0x80, 0x3C, 0,
       0, 0x90, 0x3E, 0x64,
       0x78, 0x80, 0x3E, 0,
       0, 0xFF, 0x2F, 0]) := ⟨by decide, rfl⟩

/-- C4, amended: `create_midi` never rejects an event whose computed start
delta is negative.  A negative delta whose truncation toward zero is 0 (here
`(0 - 1/512) * 480 = -15/16`) is silently encoded as delta-time 0, and a delta
that truncates to `-1` or less (here `(-1 - 0) * 480 = -480`) makes the first
loop of `write_varlen` run forever, so the encode neither errors nor returns:
it diverges (`none` for every fuel). -/
theorem c4_amended_clamp_or_diverge :
    (((0 : ℚ) - (0 + 1/512)) * 480 < 0 ∧
      create_midi 64 120 [⟨0, 60, 1/512, 100⟩, ⟨0, 62, 1/4, 100⟩] = some (.ok
        [0x4D, 0x54, 0x68, 0x64, 0, 0, 0, 6, 0, 1, 0, 1, 0x01, 0xE0,
         0x4D, 0x54, 0x72, 0x6B, 0, 0, 0, 27,
         0, 0xFF, 0x51, 0x03, 0x07, 0xA1, 0x20,
         0, 0x90, 0x3C, 0x64,
         0, 0x80, 0x3C, 0,
         0, 0x90, 0x3E, 0x64,
         0x78, 0x80, 0x3E, 0,
         0, 0xFF, 0x2F, 0])) ∧
    (∀ fuel : Nat, create_midi fuel 120 [⟨-1, 60, 1/4, 100⟩] = none) := by
  refine ⟨⟨by decide, rfl⟩, fun fuel => ?_⟩
  refine create_midi_none_of_eventLoop fuel 120 _ (by decide) (by decide) ?_
  exact eventLoop_none_of_first_neg fuel 0 _ _ (by decide)

/-- C5, counterexample: on the input `tempo = 240`,
`events = [(-2, 60, 1, 100)]`, the first event's start delta is
`int(-2 * 480) = -960`, and `write_varlen(-960)` never leaves its first loop
(`value >> 7` stays negative), so the encode does not terminate: no fuel bound
makes it return.  The claim says the encode terminates on every input. -/
theorem c5_counterexample_divergence :
    ¬ ∃ fuel r, create_midi fuel 240 [⟨-2, 60, 1, 100⟩] = some r := by
  rintro ⟨fuel, r, h⟩
  rw [create_midi_none_of_eventLoop fuel 240 _ (by decide) (by decide)
    (eventLoop_none_of_first_neg fuel 0 _ _ (by decide))] at h
  exact Option.noConfusion h

/-- C5, amended: the encode terminates (returns a result for sufficiently
large fuel) on every input all of whose computed truncated delta values —
start deltas and duration ticks alike — are nonnegative; inputs with a
truncated delta below zero instead make `write_varlen` loop forever. -/
theorem c5_amended_terminates_on_nonneg_deltas (tempo : Int)
    (notes : List NoteEvent) (h : ∀ d ∈ deltasOf 0 notes, 0 ≤ d) :
    ∃ fuel r, create_midi fuel tempo notes = some r := by
  by_cases ht : tempo = 0
  · refine ⟨0, ?_⟩
    unfold create_midi
    rw [if_pos ht]
    exact ⟨_, rfl⟩
  · cases hp : pack_L (pyInt (60000000 / (tempo : ℚ))) with
    | none =>
      refine ⟨0, ?_⟩
      unfold create_midi
      rw [if_neg ht]
      dsimp only
      rw [hp]
      exact ⟨_, rfl⟩
    | some mb =>
      obtain ⟨fuel, r, he⟩ := eventLoop_exists notes 0 h
      refine ⟨fuel, ?_⟩
      unfold create_midi
      rw [if_neg ht]
      dsimp only
      rw [hp]
      dsimp only
      rw [he]
      cases r with
      | error e => exact ⟨_, rfl⟩
      | ok ev =>
        dsimp only
        cases pack_L ((((([0, 0xFF, 0x51, 0x03] ++ mb.drop 1) ++ ev ++ eotBytes) :
            List Int).length : Int)) with
        | none => exact ⟨_, rfl⟩
        | some lenB => exact ⟨_, rfl⟩

/-- C5, witness: the single-note input `(0, 64, 1, 100)` at tempo 100 has
nonnegative deltas `[0, 480]`, so the amended theorem applies and the encode
terminates on it. -/
theorem c5_amended_terminates_on_nonneg_deltas_witness :
    (∀ d ∈ deltasOf 0 [(⟨0, 64, 1, 100⟩ : NoteEvent)], 0 ≤ d) ∧
    ∃ fuel r, create_midi fuel 100 [(⟨0, 64, 1, 100⟩ : NoteEvent)] = some r :=
  ⟨by decide, c5_amended_terminates_on_nonneg_deltas 100 _ (by decide)⟩

theorem pack_L_eq_some {x : Int} {l : List Int} (h : pack_L x = some l) :
    l = uint32be x ∧ 0 ≤ x ∧ x < 4294967296 := by
  unfold pack_L at h
  by_cases h1 : x < 0
  · rw [if_pos h1] at h
    exact absurd h (by simp)
  · rw [if_neg h1] at h
    by_cases h2 : 4294967296 ≤ x
    · rw [if_pos h2] at h
      exact absurd h (by simp)
    · rw [if_neg h2] at h
      exact ⟨(Option.some.inj h).symm, by omega, by omega⟩

theorem create_midi_ok_shape {fuel : Nat} {tempo : Int} {notes : List NoteEvent}
    {out : List Int} (hok : create_midi fuel tempo notes = some (.ok out)) :
    ∃ mb ev lenB : List Int,
      pack_L (pyInt (60000000 / (tempo : ℚ))) = some mb ∧
      pack_L (((([0, 0xFF, 0x51, 0x03] ++ mb.drop 1) ++ ev ++ eotBytes).length : Int)) =
        some lenB ∧
      out = headerBytes ++
        (mtrkMagic ++ lenB ++ (([0, 0xFF, 0x51, 0x03] ++ mb.drop 1) ++ ev ++ eotBytes)) := by
  unfold create_midi at hok
  by_cases ht : tempo = 0
  · rw [if_pos ht] at hok
    simp at hok
  · rw [if_neg ht] at hok
    dsimp only at hok
    cases hp : pack_L (pyInt (60000000 / (tempo : ℚ))) with
    | none => rw [hp] at hok; simp at hok
    | some mb =>
      rw [hp] at hok
      dsimp only at hok
      cases he : eventLoop fuel 0 notes with
      | none => rw [he] at hok; simp at hok
      | some s =>
        rw [he] at hok
        cases s with
        | error e => simp at hok
        | ok ev =>
          dsimp only at hok
          cases hl : pack_L ((((([0, 0xFF, 0x51, 0x03] ++ mb.drop 1) ++ ev ++ eotBytes) :
              List Int).length : Int)) with
          | none => rw [hl] at hok; simp at hok
          | some lenB =>
            rw [hl] at hok
            dsimp only at hok
            refine ⟨mb, ev, lenB, rfl, hl, ?_⟩
            exact (Except.ok.inj (Option.some.inj hok)).symm

/-- C6: in every successful output, the tempo meta event at the start of the
track data (output bytes 22-28) is `00 FF 51 03` followed by exactly the 3
trailing big-endian base-256 digits of `int(60000000 / tempo)` — the value is
computed once by truncation and packed into exactly 3 big-endian bytes; in
particular `tempo = 155` yields 387096 microseconds per beat, packed as
`05 E8 18`. -/
theorem c6_tempo_microseconds (fuel : Nat) (tempo : Int) (notes : List NoteEvent)
    (out : List Int) (hok : create_midi fuel tempo notes = some (.ok out)) :
    (out.drop 22).take 7 =
      [0, 0xFF, 0x51, 0x03] ++ (uint32be (pyInt (60000000 / (tempo : ℚ)))).drop 1 ∧
    ((uint32be (pyInt (60000000 / (tempo : ℚ)))).drop 1).length = 3 ∧
    pyInt ((60000000 : ℚ) / 155) = 387096 ∧
    (uint32be 387096).drop 1 = [0x05, 0xE8, 0x18] := by
  obtain ⟨mb, ev, lenB, hp, hl, hout⟩ := create_midi_ok_shape hok
  obtain ⟨hmb, -, -⟩ := pack_L_eq_some hp
  obtain ⟨hlenB, -, -⟩ := pack_L_eq_some hl
  subst hmb
  subst hout
  refine ⟨?_, by simp [uint32be], by decide, by decide⟩
  have hassoc : headerBytes ++ (mtrkMagic ++ lenB ++
      (([0, 0xFF, 0x51, 0x03] ++
        (uint32be (pyInt (60000000 / (tempo : ℚ)))).drop 1) ++ ev ++ eotBytes)) =
      (headerBytes ++ mtrkMagic ++ lenB) ++
      ((([0, 0xFF, 0x51, 0x03] ++
        (uint32be (pyInt (60000000 / (tempo : ℚ)))).drop 1) ++ (ev ++ eotBytes)) :
        List Int) := by
    simp [List.append_assoc]
  rw [hassoc, List.drop_left' (by simp [headerBytes, mtrkMagic, hlenB, uint32be]),
    List.take_left' (by simp [uint32be])]

/-- C9: in every successful output, the 4 bytes following the `MTrk` magic are
the 32-bit big-endian encoding of the exact byte length of the track data that
follows them (which is also smaller than `2^32`). -/
theorem c9_track_length_field (fuel : Nat) (tempo : Int) (notes : List NoteEvent)
    (out : List Int) (hok : create_midi fuel tempo notes = some (.ok out)) :
    ∃ td : List Int,
      out = headerBytes ++ (mtrkMagic ++ uint32be (td.length : Int) ++ td) ∧
      (td.length : Int) < 4294967296 := by
  obtain ⟨mb, ev, lenB, hp, hl, hout⟩ := create_midi_ok_shape hok
  obtain ⟨hlenB, h0, hlt⟩ := pack_L_eq_some hl
  exact ⟨_, by rw [hout, hlenB], hlt⟩

/-- C9, witness: the declared-length invariant instantiated at `tempo = 100`
with no events, where the encode succeeds. -/
theorem c9_track_length_field_witness :
    ∃ td : List Int,
      ([0x4D, 0x54, 0x68, 0x64, 0, 0, 0, 6, 0, 1, 0, 1, 0x01, 0xE0,
        0x4D, 0x54, 0x72, 0x6B, 0, 0, 0, 11,
        0, 0xFF, 0x51, 0x03, 0x09, 0x27, 0xC0,
        0, 0xFF, 0x2F, 0] : List Int) =
        headerBytes ++ (mtrkMagic ++ uint32be (td.length : Int) ++ td) ∧
      (td.length : Int) < 4294967296 :=
  c9_track_length_field 64 100 [] _ rfl

/-- C6, witness: the tempo meta-event property instantiated at `tempo = 98`
with no events (`int(60000000 / 98) = 612244`, packed as `09 57 94`). -/
theorem c6_tempo_microseconds_witness :
    (([0x4D, 0x54, 0x68, 0x64, 0, 0, 0, 6, 0, 1, 0, 1, 0x01, 0xE0,
       0x4D, 0x54, 0x72, 0x6B, 0, 0, 0, 11,
       0, 0xFF, 0x51, 0x03, 0x09, 0x57, 0x94,
       0, 0xFF, 0x2F, 0] : List Int).drop 22).take 7 =
      [0, 0xFF, 0x51, 0x03] ++
        (uint32be (pyInt (60000000 / ((98 : Int) : ℚ)))).drop 1 ∧
    ((uint32be (pyInt (60000000 / ((98 : Int) : ℚ)))).drop 1).length = 3 ∧
    pyInt ((60000000 : ℚ) / 155) = 387096 ∧
    (uint32be 387096).drop 1 = [0x05, 0xE8, 0x18] :=
  c6_tempo_microseconds 64 98 [] _ rfl

/-- C10: on the empty event sequence, for every tempo whose truncated
microsecond value exists (`tempo ≠ 0`) and fits in 3 bytes, the encode
succeeds for any fuel and returns exactly the 33 bytes: 14-byte header,
`MTrk`, declared track length 11, the 7-byte tempo meta event and the 4-byte
end-of-track meta event. -/
theorem c10_empty_sequence (fuel : Nat) (tempo : Int) (ht : tempo ≠ 0)
    (h0 : 0 ≤ pyInt (60000000 / (tempo : ℚ)))
    (h24 : pyInt (60000000 / (tempo : ℚ)) < 16777216) :
    create_midi fuel tempo [] = some (.ok
      (headerBytes ++ (mtrkMagic ++ uint32be 11 ++
        (([0, 0xFF, 0x51, 0x03] ++ (uint32be (pyInt (60000000 / (tempo : ℚ)))).drop 1) ++
          [] ++ eotBytes)))) ∧
    (headerBytes ++ (mtrkMagic ++ uint32be 11 ++
      (([0, 0xFF, 0x51, 0x03] ++ (uint32be (pyInt (60000000 / (tempo : ℚ)))).drop 1) ++
        [] ++ eotBytes))).length = 33 := by
  constructor
  · unfold create_midi
    rw [if_neg ht]
    dsimp only
    have hp : pack_L (pyInt (60000000 / (tempo : ℚ))) =
        some (uint32be (pyInt (60000000 / (tempo : ℚ)))) := by
      unfold pack_L
      rw [if_neg (by omega), if_neg (by omega)]
    rw [hp]
    dsimp only
    rw [show eventLoop fuel 0 [] = some (.ok []) from rfl]
    dsimp only
    simp [pack_L, uint32be, eotBytes]
  · simp [headerBytes, mtrkMagic, uint32be, eotBytes]

/-- C10, witness: the empty-sequence property instantiated at `tempo = 155`
(`int(60000000 / 155) = 387096 < 2^24`). -/
theorem c10_empty_sequence_witness :
    create_midi 64 155 [] = some (.ok
      (headerBytes ++ (mtrkMagic ++ uint32be 11 ++
        (([0, 0xFF, 0x51, 0x03] ++
          (uint32be (pyInt (60000000 / ((155 : Int) : ℚ)))).drop 1) ++
          [] ++ eotBytes)))) ∧
    (headerBytes ++ (mtrkMagic ++ uint32be 11 ++
      (([0, 0xFF, 0x51, 0x03] ++
        (uint32be (pyInt (60000000 / ((155 : Int) : ℚ)))).drop 1) ++
        [] ++ eotBytes))).length = 33 :=
  c10_empty_sequence 64 155 (by decide) (by decide) (by decide)

/-- C7, counterexample: `tempo = 3` gives `int(60000000 / 3) = 20000000 =
0x01312D00`, which does not fit in 3 bytes, yet the encode is not rejected:
`pack('>L', ..)[1:]` silently drops the leading byte `0x01` and the buffer is
produced with tempo bytes `31 2D 00`.  The claim says such tempos fail with
`InvalidTempo` and produce no buffer. -/
theorem c7_counterexample_tempo3_not_rejected :
    create_midi 64 3 [] = some (.ok
      [0x4D, 0x54, 0x68, 0x64, 0, 0, 0, 6, 0, 1, 0, 1, 0x01, 0xE0,
       0x4D, 0x54, 0x72, 0x6B, 0, 0, 0, 11,
       0, 0xFF, 0x51, 0x03, 0x31, 0x2D, 0,
       0, 0xFF, 0x2F, 0]) := rfl

/-- C7, amended: `tempo = 0` fails with `ZeroDivisionError` (not a dedicated
`InvalidTempo` error) and every tempo in `[-60000000, -1]` fails with
`struct.error` because the truncated microsecond value is negative — in both
cases no buffer is produced; but a positive tempo whose microsecond value
needs more than 3 bytes is not rejected: the value's low 3 bytes are emitted,
as at `tempo = 2` (30000000 = 0x01C9C380, emitted as `C9 C3 80`). -/
theorem c7_amended_tempo_failures :
    (∀ (tempo : Int) (notes : List NoteEvent) (fuel : Nat),
      -60000000 ≤ tempo → tempo ≤ 0 →
      ∃ e, create_midi fuel tempo notes = some (.error e)) ∧
    create_midi 64 2 [] = some (.ok
      [0x4D, 0x54, 0x68, 0x64, 0, 0, 0, 6, 0, 1, 0, 1, 0x01, 0xE0,
       0x4D, 0x54, 0x72, 0x6B, 0, 0, 0, 11,
       0, 0xFF, 0x51, 0x03, 0xC9, 0xC3, 0x80,
       0, 0xFF, 0x2F, 0]) := by
  refine ⟨?_, rfl⟩
  intro tempo notes fuel hlo hhi
  by_cases ht : tempo = 0
  · refine ⟨.zeroDivision, ?_⟩
    unfold create_midi
    rw [if_pos ht]
  · refine ⟨.structError, ?_⟩
    have htq : (tempo : ℚ) < 0 := by
      exact_mod_cast (by omega : tempo < 0)
    have hloq : (-60000000 : ℚ) ≤ (tempo : ℚ) := by exact_mod_cast hlo
    have hq : (60000000 : ℚ) / (tempo : ℚ) ≤ -1 := by
      rw [div_le_iff_of_neg htq]
      linarith
    have hv : pyInt (60000000 / (tempo : ℚ)) ≤ -1 := by
      unfold pyInt
      rw [if_pos (by linarith : (60000000 : ℚ) / (tempo : ℚ) < 0)]
      have h1 : (1 : Int) ≤ Rat.floor (-(60000000 / (tempo : ℚ))) := by
        rw [Rat.le_floor]
        push_cast
        linarith
      omega
    have hpk : pack_L (pyInt (60000000 / (tempo : ℚ))) = none := by
      unfold pack_L
      rw [if_pos (by omega)]
    unfold create_midi
    rw [if_neg ht]
    dsimp only
    rw [hpk]

/-- C7, witness: the failure half of the amended claim instantiated at
`tempo = -5` with no events. -/
theorem c7_amended_tempo_failures_witness :
    ∃ e, create_midi 64 (-5) [] = some (.error e) :=
  c7_amended_tempo_failures.1 (-5) [] 64 (by decide) (by decide)

/-- C8: evaluation at the failing input `tempo = 120`,
`events = [(0.0, 60, 1.0, 100)]`.  The track does contain exactly one Note-On
`90 3C 64` followed by one Note-Off `80 3C 00` for the event, but the
Note-Off's delta-time field is `60 83` — `write_varlen(480)` — which is the
reverse of the standard VLQ encoding `83 60` of the 480-tick duration, so the
delta field is not the VLQ encoding the claim requires (and the duration is
truncated, not rounded). -/
theorem c8_note_pairing_failing_input :
    create_midi 64 120 [⟨0, 60, 1, 100⟩] = some (.ok
      [0x4D, 0x54, 0x68, 0x64, 0, 0, 0, 6, 0, 1, 0, 1, 0x01, 0xE0,
       0x4D, 0x54, 0x72, 0x6B, 0, 0, 0, 20,
       0, 0xFF, 0x51, 0x03, 0x07, 0xA1, 0x20,
       0, 0x90, 0x3C, 0x64,
       0x60, 0x83, 0x80, 0x3C, 0,
       0, 0xFF, 0x2F, 0]) ∧
    write_varlen 64 480 = some [0x60, 0x83] ∧
    write_varlen 64 480 ≠ some [0x83, 0x60] :=
  ⟨rfl, rfl, by decide⟩
